import Mathlib

/-!
Verification of the Speculative Execution Orchestrator design and of the
browser WebSocket client of this repository.

The orchestrator (Confidence Gate, Speculative Task Registry, Tool
Dispatcher, Reconciliation Engine) is described in the design documents
(`prodcut.md` sections 4, 8 and 19 of the specification) but has no runnable
implementation in the repository, so those components are modelled from the
spec below; each such definition is marked `Modelled from the spec:`.
Probabilities and CPU utilisation are rationals in the source material; they
are embedded as natural numbers scaled by 1000 (τ = 0.75 ↦ 750) and by 100
(85 % ↦ 85) respectively, so every comparison is exact.

The WebSocket client (`clients/demo/js/websocket.js`) is real code and is
embedded directly from the source.
-/

namespace SpecOrch

/-- Modelled from the spec: an `IntentGuess` — intent label, probability
(scaled by 1000), extracted slot values, source sequence number, and the
wall-clock time (ms) at which it was produced. -/
structure IntentGuess where
  intent : String
  p : Nat
  slots : List (String × String)
  seq : Nat
  t : Nat
deriving DecidableEq

/-- Modelled from the spec: gate configuration — threshold τ (scaled by
1000), dwell window (ms), cooldown after cancel (ms), CPU load-shedding
threshold (percent). Defaults: τ=0.75, dwell=120 ms, cooldown=800 ms,
CPU 85 %. -/
structure GateConfig where
  tau : Nat
  dwell : Nat
  cooldown : Nat
  cpuThreshold : Nat
deriving DecidableEq

def defaultGateConfig : GateConfig := { tau := 750, dwell := 120, cooldown := 800, cpuThreshold := 85 }

/-- Modelled from the spec: per-session state of the Confidence Gate — last
accepted sequence number, the intent currently dominant (top guess) and
since when, whether a trigger already fired for the current dominance run,
the time of the last cancellation per intent slot, and the load-shedding
flag driven by CPU utilisation reports. -/
structure GateState where
  lastSeq : Option Nat
  domIntent : Option String
  domSince : Nat
  triggered : Bool
  lastCancel : List (String × Nat)
  cpuOverloaded : Bool
deriving DecidableEq

def gateInit : GateState :=
  { lastSeq := Option.none, domIntent := Option.none, domSince := 0,
    triggered := false, lastCancel := [], cpuOverloaded := false }

/-- Modelled from the spec: the gate's decision for one incoming guess. -/
inductive GateDecision
  | fireTrigger
  | fireCancel (prev : String)
  | noDecision
deriving DecidableEq

inductive GateError
  | orderingViolation
deriving DecidableEq

/-- Modelled from the spec: outcome of feeding one guess to the gate. -/
inductive GateOut
  | ok (d : GateDecision)
  | err (e : GateError)
deriving DecidableEq

/-- Modelled from the spec: the cooldown check — at least `cooldown` ms must
have elapsed since the last cancellation recorded for this intent slot. -/
def cooldownOk (cfg : GateConfig) (lc : List (String × Nat)) (i : String) (t : Nat) : Bool :=
  match lc.lookup i with
  | Option.none => true
  | some c => decide (c + cfg.cooldown ≤ t)

/-- Modelled from the spec: all three trigger conditions — probability
strictly above τ, the same intent top continuously for the whole dwell
window, cooldown elapsed — plus no duplicate trigger for the same run and
no trigger while load-shedding. -/
def triggerReady (cfg : GateConfig) (s : GateState) (g : IntentGuess) : Bool :=
  decide (cfg.tau < g.p) && decide (s.domSince + cfg.dwell ≤ g.t) &&
    cooldownOk cfg s.lastCancel g.intent g.t && !s.triggered && !s.cpuOverloaded

def tryTrigger (cfg : GateConfig) (s : GateState) (g : IntentGuess) : GateState × GateDecision :=
  if triggerReady cfg s g then ({ s with triggered := true }, GateDecision.fireTrigger)
  else (s, GateDecision.noDecision)

/-- Modelled from the spec: the gate's core decision once ordering has been
accepted. If the top intent stays the same the dominance run continues and
a trigger may fire; if the top intent changes away from a previously
triggered intent a cancel decision fires immediately (recording the
cancellation time for the cooldown), otherwise the run restarts on the new
intent. -/
def gateCore (cfg : GateConfig) (s : GateState) (g : IntentGuess) : GateState × GateDecision :=
  if s.domIntent = some g.intent then
    tryTrigger cfg s g
  else
    match s.domIntent, s.triggered with
    | some j, true =>
        ({ s with domIntent := some g.intent, domSince := g.t, triggered := false,
                  lastCancel := (j, g.t) :: s.lastCancel }, GateDecision.fireCancel j)
    | _, _ =>
        tryTrigger cfg { s with domIntent := some g.intent, domSince := g.t, triggered := false } g

/-- True when the new guess arrives out of order: its sequence number is
below the last accepted one. -/
def seqRejected (s : GateState) (g : IntentGuess) : Bool :=
  match s.lastSeq with
  | some q => decide (g.seq < q)
  | Option.none => false

/-- Modelled from the spec: one step of the Confidence Gate. A guess whose
sequence number is below the last accepted one is rejected with
`OrderingViolation` and dropped, leaving the state unchanged. -/
def gateStep (cfg : GateConfig) (s : GateState) (g : IntentGuess) : GateState × GateOut :=
  if seqRejected s g then (s, GateOut.err GateError.orderingViolation)
  else ((gateCore cfg { s with lastSeq := some g.seq } g).1,
        GateOut.ok (gateCore cfg { s with lastSeq := some g.seq } g).2)

def gateRun (cfg : GateConfig) (s : GateState) : List IntentGuess → GateState × List GateOut
  | [] => (s, [])
  | g :: rest =>
      ((gateRun cfg (gateStep cfg s g).1 rest).1,
       (gateStep cfg s g).2 :: (gateRun cfg (gateStep cfg s g).1 rest).2)

def countTriggers (os : List GateOut) : Nat :=
  os.countP (fun o => decide (o = GateOut.ok GateDecision.fireTrigger))

/-- Strictly increasing sequence numbers, starting above the last accepted
one (if any). -/
def seqAbove : Option Nat → List IntentGuess → Prop
  | _, [] => True
  | Option.none, g :: rest => seqAbove (some g.seq) rest
  | some q, g :: rest => q < g.seq ∧ seqAbove (some g.seq) rest

/-- Modelled from the spec: events reaching the gate — intent guesses and
simulated CPU-utilisation reports (percent) driving load shedding. -/
inductive SysEvent
  | guessEv (g : IntentGuess)
  | cpuEv (u : Nat)
deriving DecidableEq

def sysStep (cfg : GateConfig) (s : GateState) : SysEvent → GateState × GateOut
  | SysEvent.guessEv g => gateStep cfg s g
  | SysEvent.cpuEv u =>
      ({ s with cpuOverloaded := decide (cfg.cpuThreshold < u) }, GateOut.ok GateDecision.noDecision)

def sysRun (cfg : GateConfig) (s : GateState) : List SysEvent → GateState × List GateOut
  | [] => (s, [])
  | e :: rest =>
      ((sysRun cfg (sysStep cfg s e).1 rest).1,
       (sysStep cfg s e).2 :: (sysRun cfg (sysStep cfg s e).1 rest).2)

/-- Modelled from the spec: lifecycle states of a `SpeculativeTask`;
`pending` and `running` are the non-terminal (live) states. -/
inductive TaskState
  | pending
  | running
  | completed
  | canceled
  | failed
deriving DecidableEq

/-- Modelled from the spec: a `SpeculativeTask` — unique id, owning session,
target intent, slot snapshot at launch time, lifecycle state and the
(nullable) result payload. -/
structure SpecTask where
  id : Nat
  sessionId : Nat
  intent : String
  slots : List (String × String)
  state : TaskState
  result : Option String
deriving DecidableEq

def isLive (t : SpecTask) : Bool :=
  t.state == TaskState.pending || t.state == TaskState.running

/-- Modelled from the spec: the Speculative Task Registry — the tasks it
holds plus the next fresh task id. -/
structure Registry where
  tasks : List SpecTask
  nextId : Nat
deriving DecidableEq

def registryInit : Registry := { tasks := [], nextId := 0 }

def getTask (reg : Registry) (tid : Nat) : Option SpecTask :=
  reg.tasks.find? (fun t => t.id == tid)

inductive RegError
  | duplicateIntentError
  | notFoundError
deriving DecidableEq

def hasLive (reg : Registry) (sid : Nat) (i : String) : Bool :=
  reg.tasks.any (fun t => isLive t && t.sessionId == sid && t.intent == i)

/-- Modelled from the spec: `trigger(session, intent, slots)` — fails with
`DuplicateIntentError` when a non-terminal task already exists for that
(session, intent) pair, otherwise inserts a fresh `pending` task. -/
def triggerTask (reg : Registry) (sid : Nat) (i : String) (sl : List (String × String)) :
    Except RegError (Registry × Nat) :=
  if hasLive reg sid i then Except.error RegError.duplicateIntentError
  else Except.ok
    ({ tasks := reg.tasks ++ [⟨reg.nextId, sid, i, sl, TaskState.pending, Option.none⟩],
       nextId := reg.nextId + 1 }, reg.nextId)

def cancelMatching (sid : Nat) (i : String) (t : SpecTask) : SpecTask :=
  if isLive t && t.sessionId == sid && t.intent == i then { t with state := TaskState.canceled }
  else t

/-- Modelled from the spec: cancel every live task of the (session, intent)
slot — the predecessor-cancellation pass that must precede a new launch. -/
def cancelAllLive (reg : Registry) (sid : Nat) (i : String) : Registry :=
  { reg with tasks := reg.tasks.map (cancelMatching sid i) }

/-- Modelled from the spec: launching a new speculation first cancels any
live predecessor for the same intent slot and then triggers. The error
branch of the inner `trigger` is unreachable after the cancellation pass. -/
def launchTask (reg : Registry) (sid : Nat) (i : String) (sl : List (String × String)) :
    Registry × Nat :=
  let reg1 := cancelAllLive reg sid i
  match triggerTask reg1 sid i sl with
  | Except.ok r => r
  | Except.error _ => (reg1, reg1.nextId)

def cancelStep (tid : Nat) (t : SpecTask) : SpecTask :=
  if t.id == tid && isLive t then { t with state := TaskState.canceled } else t

/-- Modelled from the spec: `cancel(task_id)` — transitions a `pending` or
`running` task to `canceled`; a no-op (never an error) on a task already in
a terminal state. -/
def cancelTask (reg : Registry) (tid : Nat) : Registry :=
  { reg with tasks := reg.tasks.map (cancelStep tid) }

def completeStep (tid : Nat) (r : String) (t : SpecTask) : SpecTask :=
  if t.id == tid && t.state == TaskState.running then
    { t with state := TaskState.completed, result := some r }
  else t

/-- Modelled from the spec: `complete(task_id, result)` — transitions
`running` to `completed` and stores the result; silently a no-op (logged,
never raised into the caller — the function is total) on a task in any
other state, in particular on an already-`canceled` task. -/
def completeTask (reg : Registry) (tid : Nat) (r : String) : Registry :=
  { reg with tasks := reg.tasks.map (completeStep tid r) }

def failStep (tid : Nat) (t : SpecTask) : SpecTask :=
  if t.id == tid && isLive t then { t with state := TaskState.failed } else t

/-- Modelled from the spec: record a terminal failure (budget exceeded or
downstream error) for a live task. -/
def failTask (reg : Registry) (tid : Nat) : Registry :=
  { reg with tasks := reg.tasks.map (failStep tid) }

/-- Modelled from the spec: the eviction sweep — removes tasks whose state
is terminal, bounding memory. -/
def evictTerminal (reg : Registry) : Registry :=
  { reg with tasks := reg.tasks.filter (fun t => isLive t) }

/-- Modelled from the spec: the registry operations a caller can issue. -/
inductive RegOp
  | topTrigger (sid : Nat) (i : String) (sl : List (String × String))
  | topLaunch (sid : Nat) (i : String) (sl : List (String × String))
  | topCancel (tid : Nat)
  | topComplete (tid : Nat) (r : String)
  | topFail (tid : Nat)
  | topEvict
deriving DecidableEq

def applyOp (reg : Registry) : RegOp → Registry
  | RegOp.topTrigger sid i sl =>
      match triggerTask reg sid i sl with
      | Except.ok r => r.1
      | Except.error _ => reg
  | RegOp.topLaunch sid i sl => (launchTask reg sid i sl).1
  | RegOp.topCancel tid => cancelTask reg tid
  | RegOp.topComplete tid r => completeTask reg tid r
  | RegOp.topFail tid => failTask reg tid
  | RegOp.topEvict => evictTerminal reg

/-- Two tasks violate the at-most-one-live invariant when both are live for
the same (session, intent) pair. -/
def NoDupLive (a b : SpecTask) : Prop :=
  ¬(isLive a = true ∧ isLive b = true ∧ a.sessionId = b.sessionId ∧ a.intent = b.intent)

/-- Modelled from the spec: at most one non-terminal task per
(session, intent) pair. -/
def AtMostOneLive (reg : Registry) : Prop := reg.tasks.Pairwise NoDupLive

/-- Modelled from the spec: the downstream collaborator of a dispatch,
specified at its interface boundary — how long it takes to respond and
whether the response is a payload or an error. -/
structure Downstream where
  latency : Nat
  response : Except String String

/-- Modelled from the spec: terminal outcome of a dispatched operation; all
outcomes are delivered as values via the callback/future, never thrown past
the dispatch boundary (the dispatcher is a total function). -/
inductive DispatchOutcome
  | success (r : String)
  | downstreamFailed (e : String)
  | budgetExceeded
deriving DecidableEq

/-- Modelled from the spec: `dispatch` under a hard budget — if the
downstream has not responded within `budgetMs` the call is cancelled and a
`BudgetExceeded` failure is reported. -/
def dispatch (budgetMs : Nat) (d : Downstream) : DispatchOutcome :=
  if d.latency ≤ budgetMs then
    match d.response with
    | Except.ok r => DispatchOutcome.success r
    | Except.error e => DispatchOutcome.downstreamFailed e
  else DispatchOutcome.budgetExceeded

/-- Modelled from the spec: how long the dispatcher waits — never past the
budget. -/
def dispatchElapsed (budgetMs : Nat) (d : Downstream) : Nat := min d.latency budgetMs

/-- Modelled from the spec: the dispatcher's callback into the registry —
success calls `complete`, every failure records a terminal task failure. -/
def deliverOutcome (reg : Registry) (tid : Nat) : DispatchOutcome → Registry
  | DispatchOutcome.success r => completeTask reg tid r
  | DispatchOutcome.downstreamFailed _ => failTask reg tid
  | DispatchOutcome.budgetExceeded => failTask reg tid

/-- Modelled from the spec: outcome of reconciliation — a `hit` reusing the
speculative result, or a `miss` followed by a fallback dispatch through the
Tool Dispatcher. -/
inductive ReconOutcome
  | hit (payload : Option String)
  | missFallback (fresh : DispatchOutcome)
deriving DecidableEq

/-- Modelled from the spec: a `completed` task matches the final utterance
exactly — same session, same intent and slot mapping equal by exact match
(no normalisation). -/
def specHitMatch (sid : Nat) (fi : String) (fs : List (String × String)) (t : SpecTask) : Bool :=
  t.sessionId == sid && t.state == TaskState.completed && t.intent == fi && t.slots == fs

/-- Modelled from the spec: the Reconciliation Engine — look up a
`completed` task for the exact final (intent, slot mapping); on a hit reuse
its result, otherwise miss and dispatch a fresh call. -/
def reconcile (reg : Registry) (sid : Nat) (fi : String) (fs : List (String × String))
    (budgetMs : Nat) (d : Downstream) : ReconOutcome :=
  match reg.tasks.find? (specHitMatch sid fi fs) with
  | some t => ReconOutcome.hit t.result
  | Option.none => ReconOutcome.missFallback (dispatch budgetMs d)

end SpecOrch

namespace WSClient

/-!
Embedding of `clients/demo/js/websocket.js` (`WebSocketManager`). A message
is its `type` field, the optional `session_id` and `seq` fields, and an
opaque body standing for the remaining payload fields. The network is
modelled by a Boolean per attempted `ws.send` (`true` = the call returned
normally, `false` = it threw); `sent` is the transcript of frames that went
out on the wire, in order.
-/

structure Msg where
  type : String
  sessionId : Option String
  seq : Option Nat
  body : String
deriving DecidableEq

/-- State of a `WebSocketManager` instance: whether the socket exists and
`readyState === OPEN`, the `isConnecting` / `isAuthenticated` flags, the
generated `sessionId`, the `pendingQueue`, the wire transcript and the
`audioSeq` counter (initialised to 0 in the constructor). -/
structure WSState where
  wsOpen : Bool
  isConnecting : Bool
  isAuthenticated : Bool
  sessionId : String
  pendingQueue : List Msg
  sent : List Msg
  audioSeq : Nat
deriving DecidableEq

def initWSState (sid : String) : WSState :=
  { wsOpen := false, isConnecting := false, isAuthenticated := false, sessionId := sid,
    pendingQueue := [], sent := [], audioSeq := 0 }

/-- `send(message)` (websocket.js lines 107-138): always stamps the
manager's `session_id` onto the message; queues it and returns `false` when
the socket is not open, or when not yet authenticated and the message is
not an auth message; otherwise attempts `ws.send` — `ok` tells whether that
call succeeds (the JS `catch` returns `false` without queueing). The
`connect()` attempt on a closed socket is external I/O and not modelled. -/
def send (ok : Bool) (st : WSState) (m : Msg) : WSState × Bool :=
  let mws := { m with sessionId := some st.sessionId }
  if !st.wsOpen then
    ({ st with pendingQueue := st.pendingQueue ++ [mws] }, false)
  else if !st.isAuthenticated && !(mws.type == "auth") then
    ({ st with pendingQueue := st.pendingQueue ++ [mws] }, false)
  else if ok then
    ({ st with sent := st.sent ++ [mws] }, true)
  else
    (st, false)

/-- The `for` loop of `flushQueue` (lines 264-273): send each queued message
in order; on a failed `ws.send` re-queue that message and break (messages
after it in the batch are not re-queued by the source). `oks` gives the
outcome of each attempted `ws.send`, defaulting to success when
exhausted. -/
def flushLoop : WSState → List Msg → List Bool → WSState
  | st, [], _ => st
  | st, m :: rest, oks =>
      if oks.headD true then
        flushLoop { st with sent := st.sent ++ [m] } rest oks.tail
      else
        { st with pendingQueue := st.pendingQueue ++ [m] }

/-- `flushQueue()` (lines 250-274): leaves the queue intact unless the
socket is open and authenticated; otherwise empties `pendingQueue` and
sends the batch through the loop. -/
def flushQueue (st : WSState) (oks : List Bool) : WSState :=
  if !st.wsOpen then st
  else if !st.isAuthenticated then st
  else if st.pendingQueue.isEmpty then st
  else flushLoop { st with pendingQueue := [] } st.pendingQueue oks

/-- `handleMessage(message)` (lines 143-178) restricted to its state
effects: `auth_success` sets `isAuthenticated` and flushes the queue;
`auth_error` clears `isAuthenticated`; every other type only routes to
handlers and changes no manager state. -/
def handleMessage (st : WSState) (m : Msg) (oks : List Bool) : WSState :=
  if m.type == "auth_success" then
    flushQueue { st with isAuthenticated := true } oks
  else if m.type == "auth_error" then
    { st with isAuthenticated := false }
  else st

/-- `sendAudio(audioBlob)` (lines 343-366): pre-increments `audioSeq`,
builds the `audio_frame` message with `seq: ++this.audioSeq`, and passes it
to `send`. Returns the new state and the message as built. -/
def sendAudio (ok : Bool) (st : WSState) (audioBody : String) : WSState × Msg :=
  let st1 := { st with audioSeq := st.audioSeq + 1 }
  let m : Msg := { type := "audio_frame", sessionId := Option.none,
                   seq := some st1.audioSeq, body := audioBody }
  ((send ok st1 m).1, m)

end WSClient

namespace SpecOrch

/-! ### Registry lemmas -/

lemma find?_map_id (l : List SpecTask) (f : SpecTask → SpecTask) (tid : Nat)
    (hid : ∀ t, (f t).id = t.id) :
    (l.map f).find? (fun t => t.id == tid) = (l.find? (fun t => t.id == tid)).map f := by
  induction l with
  | nil => rfl
  | cons a l ih =>
      rcases h : (a.id == tid) with _ | _
      · rw [List.map_cons, List.find?_cons_of_neg, List.find?_cons_of_neg, ih]
        · simp [h]
        · simp [hid, h]
      · rw [List.map_cons, List.find?_cons_of_pos, List.find?_cons_of_pos]
        · rfl
        · exact h
        · simp [hid, h]

lemma cancelStep_id (tid : Nat) (t : SpecTask) : (cancelStep tid t).id = t.id := by
  unfold cancelStep; split <;> rfl

lemma completeStep_id (tid : Nat) (r : String) (t : SpecTask) :
    (completeStep tid r t).id = t.id := by
  unfold completeStep; split <;> rfl

lemma failStep_id (tid : Nat) (t : SpecTask) : (failStep tid t).id = t.id := by
  unfold failStep; split <;> rfl

lemma getTask_cancelTask (reg : Registry) (tid : Nat) :
    getTask (cancelTask reg tid) tid = (getTask reg tid).map (cancelStep tid) := by
  unfold getTask cancelTask
  exact find?_map_id reg.tasks (cancelStep tid) tid (cancelStep_id tid)

lemma getTask_completeTask (reg : Registry) (tid : Nat) (r : String) :
    getTask (completeTask reg tid r) tid = (getTask reg tid).map (completeStep tid r) := by
  unfold getTask completeTask
  exact find?_map_id reg.tasks (completeStep tid r) tid (completeStep_id tid r)

lemma getTask_failTask (reg : Registry) (tid : Nat) :
    getTask (failTask reg tid) tid = (getTask reg tid).map (failStep tid) := by
  unfold getTask failTask
  exact find?_map_id reg.tasks (failStep tid) tid (failStep_id tid)

lemma cancelStep_idem (tid : Nat) (t : SpecTask) :
    cancelStep tid (cancelStep tid t) = cancelStep tid t := by
  unfold cancelStep
  rcases h : (t.id == tid && isLive t) with _ | _
  · simp [h]
  · simp only [h, if_true]
    have hl : isLive ({ t with state := TaskState.canceled } : SpecTask) = false := by
      simp [isLive]
    simp [cancelStep, hl]

/-- C4: a `complete(task_id, result)` call on a task already in the
`canceled` terminal state raises no error into the caller (`completeTask`
is total), leaves the task's state unchanged and does not store the result
— the task entry is returned exactly as it was, so a late result from a
canceled task is never surfaced. -/
theorem complete_after_canceled_noop (reg : Registry) (tid : Nat) (r : String) (t : SpecTask)
    (h1 : getTask reg tid = some t) (h2 : t.state = TaskState.canceled) :
    getTask (completeTask reg tid r) tid = some t := by
  rw [getTask_completeTask, h1]
  have hs : completeStep tid r t = t := by simp [completeStep, h2]
  simp [hs]

/-- Witness for C4 at a concrete registry holding a canceled task. -/
theorem complete_after_canceled_noop_witness :
    getTask (completeTask ⟨[⟨1, 7, "weather", [], TaskState.canceled, Option.none⟩], 2⟩ 1 "res") 1 =
      some ⟨1, 7, "weather", [], TaskState.canceled, Option.none⟩ :=
  complete_after_canceled_noop _ 1 "res" _ rfl rfl

/-- C5: `cancel(task_id)` is idempotent — `cancel (cancel s) = cancel s`
for every registry state `s`; a `pending`/`running` task transitions to
`canceled`, and cancelling a task already in a terminal state is a no-op on
that task's entry (and never an error: `cancelTask` is total). -/
theorem cancelTask_idempotent (reg : Registry) (tid : Nat) :
    cancelTask (cancelTask reg tid) tid = cancelTask reg tid ∧
    (∀ t, getTask reg tid = some t → isLive t = true →
        getTask (cancelTask reg tid) tid = some { t with state := TaskState.canceled }) ∧
    (∀ t, getTask reg tid = some t → isLive t = false →
        getTask (cancelTask reg tid) tid = some t) := by
  refine ⟨?_, ?_, ?_⟩
  · have hmm : ((reg.tasks.map (cancelStep tid)).map (cancelStep tid)) =
        reg.tasks.map (cancelStep tid) := by
      rw [List.map_map]
      exact List.map_congr_left (fun a _ => cancelStep_idem tid a)
    simp [cancelTask, hmm]
  · intro t h1 h2
    have hid : (t.id == tid) = true := by
      have := List.find?_some h1
      simpa using this
    rw [getTask_cancelTask, h1]
    simp [cancelStep, hid, h2]
  · intro t h1 h2
    rw [getTask_cancelTask, h1]
    simp [cancelStep, h2]

/-- Witness for C5 at a concrete registry holding a pending task. -/
theorem cancelTask_idempotent_witness :
    (cancelTask (cancelTask ⟨[⟨1, 7, "weather", [], TaskState.pending, Option.none⟩], 2⟩ 1) 1 =
      cancelTask ⟨[⟨1, 7, "weather", [], TaskState.pending, Option.none⟩], 2⟩ 1) ∧
    getTask (cancelTask ⟨[⟨1, 7, "weather", [], TaskState.pending, Option.none⟩], 2⟩ 1) 1 =
      some ⟨1, 7, "weather", [], TaskState.canceled, Option.none⟩ :=
  ⟨(cancelTask_idempotent ⟨[⟨1, 7, "weather", [], TaskState.pending, Option.none⟩], 2⟩ 1).1,
   (cancelTask_idempotent ⟨[⟨1, 7, "weather", [], TaskState.pending, Option.none⟩], 2⟩ 1).2.1
     ⟨1, 7, "weather", [], TaskState.pending, Option.none⟩ rfl rfl⟩

/-! ### The at-most-one-live invariant (C2) -/

lemma noDupLive_map_pres (f : SpecTask → SpecTask)
    (hf : ∀ t, isLive (f t) = true → f t = t) :
    ∀ a b, NoDupLive a b → NoDupLive (f a) (f b) := by
  intro a b hab hcon
  rcases hcon with ⟨ha, hb, hs, hi⟩
  have ea := hf a ha
  have eb := hf b hb
  rw [ea] at ha hs hi
  rw [eb] at hb hs hi
  exact hab ⟨ha, hb, hs, hi⟩

lemma live_cancelStep (tid : Nat) (t : SpecTask) :
    isLive (cancelStep tid t) = true → cancelStep tid t = t := by
  unfold cancelStep
  split
  · intro h; simp [isLive] at h
  · intro _; rfl

lemma live_completeStep (tid : Nat) (r : String) (t : SpecTask) :
    isLive (completeStep tid r t) = true → completeStep tid r t = t := by
  unfold completeStep
  split
  · intro h; simp [isLive] at h
  · intro _; rfl

lemma live_failStep (tid : Nat) (t : SpecTask) :
    isLive (failStep tid t) = true → failStep tid t = t := by
  unfold failStep
  split
  · intro h; simp [isLive] at h
  · intro _; rfl

lemma live_cancelMatching (sid : Nat) (i : String) (t : SpecTask) :
    isLive (cancelMatching sid i t) = true → cancelMatching sid i t = t := by
  unfold cancelMatching
  split
  · intro h; simp [isLive] at h
  · intro _; rfl

lemma not_hasLive_iff (reg : Registry) (sid : Nat) (i : String) :
    hasLive reg sid i = false ↔
      ∀ t ∈ reg.tasks, ¬(isLive t = true ∧ t.sessionId = sid ∧ t.intent = i) := by
  simp [hasLive, List.any_eq_false, Bool.and_eq_true, beq_iff_eq]

lemma atMostOne_cancelTask (reg : Registry) (tid : Nat) (h : AtMostOneLive reg) :
    AtMostOneLive (cancelTask reg tid) :=
  h.map (cancelStep tid) (noDupLive_map_pres (cancelStep tid) (live_cancelStep tid))

lemma atMostOne_completeTask (reg : Registry) (tid : Nat) (r : String) (h : AtMostOneLive reg) :
    AtMostOneLive (completeTask reg tid r) :=
  h.map (completeStep tid r) (noDupLive_map_pres (completeStep tid r) (live_completeStep tid r))

lemma atMostOne_failTask (reg : Registry) (tid : Nat) (h : AtMostOneLive reg) :
    AtMostOneLive (failTask reg tid) :=
  h.map (failStep tid) (noDupLive_map_pres (failStep tid) (live_failStep tid))

lemma atMostOne_cancelAllLive (reg : Registry) (sid : Nat) (i : String) (h : AtMostOneLive reg) :
    AtMostOneLive (cancelAllLive reg sid i) :=
  h.map (cancelMatching sid i) (noDupLive_map_pres (cancelMatching sid i) (live_cancelMatching sid i))

lemma atMostOne_evictTerminal (reg : Registry) (h : AtMostOneLive reg) :
    AtMostOneLive (evictTerminal reg) :=
  h.filter (fun t => isLive t)

lemma atMostOne_append_fresh (reg : Registry) (sid : Nat) (i : String)
    (sl : List (String × String)) (nid m : Nat)
    (h : AtMostOneLive reg) (hl : hasLive reg sid i = false) :
    AtMostOneLive ⟨reg.tasks ++ [⟨nid, sid, i, sl, TaskState.pending, Option.none⟩], m⟩ := by
  unfold AtMostOneLive
  rw [List.pairwise_append]
  refine ⟨h, List.pairwise_singleton _ _, ?_⟩
  intro a ha b hb hcon
  have hb1 : b = ⟨nid, sid, i, sl, TaskState.pending, Option.none⟩ := by
    simpa using hb
  rcases hcon with ⟨hla, _, hs, hi⟩
  subst hb1
  exact (not_hasLive_iff reg sid i).1 hl a ha ⟨hla, hs, hi⟩

lemma atMostOne_triggerTask (reg : Registry) (sid : Nat) (i : String)
    (sl : List (String × String)) (reg' : Registry) (nid : Nat)
    (h : AtMostOneLive reg) (htr : triggerTask reg sid i sl = Except.ok (reg', nid)) :
    AtMostOneLive reg' := by
  unfold triggerTask at htr
  split at htr
  · exact absurd htr (by simp)
  · next hl =>
      have hfalse : hasLive reg sid i = false := by
        rcases hb : hasLive reg sid i with _ | _
        · rfl
        · exact absurd hb hl
      injection htr with h2
      have h3 : reg' = ⟨reg.tasks ++ [⟨reg.nextId, sid, i, sl, TaskState.pending, Option.none⟩],
          reg.nextId + 1⟩ := by
        have := congrArg Prod.fst h2
        simpa using this.symm
      rw [h3]
      exact atMostOne_append_fresh reg sid i sl reg.nextId (reg.nextId + 1) h hfalse

lemma hasLive_cancelAllLive (reg : Registry) (sid : Nat) (i : String) :
    hasLive (cancelAllLive reg sid i) sid i = false := by
  rw [not_hasLive_iff]
  intro t ht hcon
  rcases hcon with ⟨hl, hs, hi⟩
  simp only [cancelAllLive, List.mem_map] at ht
  rcases ht with ⟨u, _, hu⟩
  subst hu
  have he := live_cancelMatching sid i u hl
  rw [he] at hl hs hi
  unfold cancelMatching at he
  split at he
  · next hc =>
      have hstate : u.state = TaskState.canceled := by
        have := congrArg SpecTask.state he
        simpa using this.symm
      simp [isLive, hstate] at hl
  · next hc =>
      apply hc
      simp [hl, hs, hi]

lemma atMostOne_launchTask (reg : Registry) (sid : Nat) (i : String)
    (sl : List (String × String)) (h : AtMostOneLive reg) :
    AtMostOneLive (launchTask reg sid i sl).1 := by
  unfold launchTask
  have h1 := atMostOne_cancelAllLive reg sid i h
  rcases htr : triggerTask (cancelAllLive reg sid i) sid i sl with e | r
  · simpa [htr] using h1
  · have := atMostOne_triggerTask (cancelAllLive reg sid i) sid i sl r.1 r.2 h1 (by rw [htr])
    simpa [htr] using this

lemma atMostOne_applyOp (reg : Registry) (op : RegOp) (h : AtMostOneLive reg) :
    AtMostOneLive (applyOp reg op) := by
  cases op with
  | topTrigger sid i sl =>
      rcases htr : triggerTask reg sid i sl with e | r
      · simpa [applyOp, htr] using h
      · have h2 := atMostOne_triggerTask reg sid i sl r.1 r.2 h (by rw [htr])
        simpa [applyOp, htr] using h2
  | topLaunch sid i sl => simpa [applyOp] using atMostOne_launchTask reg sid i sl h
  | topCancel tid => simpa [applyOp] using atMostOne_cancelTask reg tid h
  | topComplete tid r => simpa [applyOp] using atMostOne_completeTask reg tid r h
  | topFail tid => simpa [applyOp] using atMostOne_failTask reg tid h
  | topEvict => simpa [applyOp] using atMostOne_evictTerminal reg h

lemma atMostOne_foldl (ops : List RegOp) :
    ∀ reg, AtMostOneLive reg → AtMostOneLive (ops.foldl applyOp reg) := by
  induction ops with
  | nil => intro reg h; exact h
  | cons op ops ih =>
      intro reg h
      exact ih (applyOp reg op) (atMostOne_applyOp reg op h)

/-- C2: in every state of the Speculative Task Registry reachable from the
empty registry by any sequence of operations, at most one `pending`/
`running` task exists per (session, intent) pair; the invariant is
preserved by every single operation (trigger, launch, cancel, complete,
fail, eviction); and launching a new speculation for an intent slot with a
live predecessor first cancels that predecessor — the canceled predecessor
is in the registry produced by `launch`. -/
theorem registry_atMostOneLive :
    (∀ ops : List RegOp, AtMostOneLive (ops.foldl applyOp registryInit)) ∧
    (∀ reg op, AtMostOneLive reg → AtMostOneLive (applyOp reg op)) ∧
    (∀ reg sid i sl t, t ∈ reg.tasks → isLive t = true → t.sessionId = sid → t.intent = i →
      ({ t with state := TaskState.canceled } : SpecTask) ∈ (launchTask reg sid i sl).1.tasks) := by
  refine ⟨?_, atMostOne_applyOp, ?_⟩
  · intro ops
    exact atMostOne_foldl ops registryInit List.Pairwise.nil
  · intro reg sid i sl t ht hl hs hi
    have hc : cancelMatching sid i t = { t with state := TaskState.canceled } := by
      simp [cancelMatching, hl, hs, hi]
    have hm : ({ t with state := TaskState.canceled } : SpecTask) ∈
        (cancelAllLive reg sid i).tasks := by
      rw [← hc]
      exact List.mem_map_of_mem (cancelMatching sid i) ht
    unfold launchTask
    rcases htr : triggerTask (cancelAllLive reg sid i) sid i sl with e | r
    · simp only [htr]
      simpa using hm
    · have h4 : (match triggerTask (cancelAllLive reg sid i) sid i sl with
          | Except.ok r => r
          | Except.error _ => (cancelAllLive reg sid i, (cancelAllLive reg sid i).nextId)) = r := by
        rw [htr]
      rw [h4]
      unfold triggerTask at htr
      split at htr
      · exact absurd htr (by simp)
      · injection htr with h2
        have h3 : r.1 = ⟨(cancelAllLive reg sid i).tasks ++
            [⟨(cancelAllLive reg sid i).nextId, sid, i, sl, TaskState.pending, Option.none⟩],
            (cancelAllLive reg sid i).nextId + 1⟩ := by
          have := congrArg Prod.fst h2
          simpa using this.symm
        rw [h3]
        exact List.mem_append_left _ hm

/-- Witness for C2 at concrete inputs: eviction preserves the invariant and
`launch` cancels a live predecessor of the same (session, intent) slot. -/
theorem registry_atMostOneLive_witness :
    AtMostOneLive (applyOp ⟨[], 0⟩ RegOp.topEvict) ∧
    ({ id := 1, sessionId := 7, intent := "weather", slots := [],
       state := TaskState.canceled, result := Option.none } : SpecTask) ∈
      (launchTask ⟨[⟨1, 7, "weather", [], TaskState.pending, Option.none⟩], 2⟩
        7 "weather" []).1.tasks :=
  ⟨registry_atMostOneLive.2.1 ⟨[], 0⟩ RegOp.topEvict List.Pairwise.nil,
   registry_atMostOneLive.2.2 ⟨[⟨1, 7, "weather", [], TaskState.pending, Option.none⟩], 2⟩
     7 "weather" [] ⟨1, 7, "weather", [], TaskState.pending, Option.none⟩
     (by simp) rfl rfl rfl⟩

/-! ### Reconciliation (C3) and dispatcher budget (C7) -/

lemma specHitMatch_iff (sid : Nat) (fi : String) (fs : List (String × String)) (t : SpecTask) :
    specHitMatch sid fi fs t = true ↔
      t.sessionId = sid ∧ t.state = TaskState.completed ∧ t.intent = fi ∧ t.slots = fs := by
  simp [specHitMatch, Bool.and_eq_true, beq_iff_eq, and_assoc]

lemma reconcile_none_of_no_match (reg : Registry) (sid : Nat) (fi : String)
    (fs : List (String × String)) (budgetMs : Nat) (d : Downstream)
    (h : ∀ t ∈ reg.tasks, ¬(t.sessionId = sid ∧ t.state = TaskState.completed ∧
        t.intent = fi ∧ t.slots = fs)) :
    reconcile reg sid fi fs budgetMs d = ReconOutcome.missFallback (dispatch budgetMs d) := by
  have hf : reg.tasks.find? (specHitMatch sid fi fs) = Option.none := by
    rw [List.find?_eq_none]
    intro t ht hm
    exact h t ht ((specHitMatch_iff sid fi fs t).1 hm)
  unfold reconcile
  rw [hf]

/-- C3: the Reconciliation Engine yields `hit` if and only if the registry
holds a `completed` task whose (intent, slot mapping) equals the final one
exactly — slot equality is plain equality of the mapping, not fuzzy or
normalised — and when every `completed` candidate differs (even in a single
slot value) the outcome is `miss` followed by a fallback dispatch through
the Tool Dispatcher. -/
theorem reconcile_exactMatch (reg : Registry) (sid : Nat) (fi : String)
    (fs : List (String × String)) (budgetMs : Nat) (d : Downstream) :
    ((∃ p, reconcile reg sid fi fs budgetMs d = ReconOutcome.hit p) ↔
      ∃ t ∈ reg.tasks, t.sessionId = sid ∧ t.state = TaskState.completed ∧
        t.intent = fi ∧ t.slots = fs) ∧
    ((∀ t ∈ reg.tasks, t.sessionId = sid → t.state = TaskState.completed → t.intent = fi →
        t.slots ≠ fs) →
      reconcile reg sid fi fs budgetMs d = ReconOutcome.missFallback (dispatch budgetMs d)) := by
  constructor
  · constructor
    · rintro ⟨p, hp⟩
      unfold reconcile at hp
      rcases hf : reg.tasks.find? (specHitMatch sid fi fs) with _ | t
      · rw [hf] at hp; simp at hp
      · exact ⟨t, List.mem_of_find?_eq_some hf,
          (specHitMatch_iff sid fi fs t).1 (List.find?_some hf)⟩
    · rintro ⟨t, ht, hprops⟩
      have hsome : (reg.tasks.find? (specHitMatch sid fi fs)).isSome := by
        rw [List.find?_isSome]
        exact ⟨t, ht, (specHitMatch_iff sid fi fs t).2 hprops⟩
      rcases Option.isSome_iff_exists.1 hsome with ⟨u, hu⟩
      refine ⟨u.result, ?_⟩
      unfold reconcile
      rw [hu]
  · intro hall
    apply reconcile_none_of_no_match
    intro t ht hm
    exact hall t ht hm.1 hm.2.1 hm.2.2.1 hm.2.2.2

/-- Witness for C3: a single differing slot value ("Pokhara" vs
"Kathmandu") yields a miss and the fallback dispatch. -/
theorem reconcile_exactMatch_witness :
    reconcile ⟨[⟨1, 7, "weather", [("city", "Kathmandu")], TaskState.completed, some "res"⟩], 2⟩
      7 "weather" [("city", "Pokhara")] 1200 ⟨100, Except.ok "fresh"⟩ =
      ReconOutcome.missFallback (dispatch 1200 ⟨100, Except.ok "fresh"⟩) :=
  (reconcile_exactMatch
    ⟨[⟨1, 7, "weather", [("city", "Kathmandu")], TaskState.completed, some "res"⟩], 2⟩
    7 "weather" [("city", "Pokhara")] 1200 ⟨100, Except.ok "fresh"⟩).2 (by decide)

/-- C7: when the downstream has not responded within `budget_ms` the
dispatcher reports `BudgetExceeded` as the terminal outcome delivered as a
value (never thrown — `dispatch` is total), waits exactly the budget and no
longer, records a terminal `failed` state on the task via the callback, and
the failure is never surfaced as a user error: reconciliation over a
registry without a completed match falls back to a fresh dispatch. -/
theorem dispatcher_budget_enforced (budgetMs : Nat) (d : Downstream)
    (h : budgetMs < d.latency) :
    dispatch budgetMs d = DispatchOutcome.budgetExceeded ∧
    dispatchElapsed budgetMs d = budgetMs ∧
    (∀ reg tid t, getTask reg tid = some t → t.state = TaskState.running →
      getTask (deliverOutcome reg tid (dispatch budgetMs d)) tid =
        some { t with state := TaskState.failed }) ∧
    (∀ reg sid fi fs, (∀ t ∈ reg.tasks, t.state ≠ TaskState.completed) →
      reconcile reg sid fi fs budgetMs d = ReconOutcome.missFallback (dispatch budgetMs d)) := by
  have hbe : dispatch budgetMs d = DispatchOutcome.budgetExceeded := by
    unfold dispatch
    rw [if_neg (by omega)]
  refine ⟨hbe, ?_, ?_, ?_⟩
  · unfold dispatchElapsed
    omega
  · intro reg tid t h1 h2
    have hid : (t.id == tid) = true := by simpa using List.find?_some h1
    rw [hbe]
    show getTask (failTask reg tid) tid = _
    rw [getTask_failTask, h1]
    simp [failStep, hid, isLive, h2]
  · intro reg sid fi fs hall
    apply reconcile_none_of_no_match
    intro t ht hm
    exact hall t ht hm.2.1

/-- Witness for C7: a 1300 ms downstream against the default 1200 ms
budget. -/
theorem dispatcher_budget_enforced_witness :
    dispatch 1200 ⟨1300, Except.ok "r"⟩ = DispatchOutcome.budgetExceeded ∧
    dispatchElapsed 1200 ⟨1300, Except.ok "r"⟩ = 1200 ∧
    getTask (deliverOutcome ⟨[⟨1, 7, "weather", [], TaskState.running, Option.none⟩], 2⟩ 1
      (dispatch 1200 ⟨1300, Except.ok "r"⟩)) 1 =
      some ⟨1, 7, "weather", [], TaskState.failed, Option.none⟩ ∧
    reconcile ⟨[⟨1, 7, "weather", [], TaskState.failed, Option.none⟩], 2⟩ 7 "weather" [] 1200
      ⟨1300, Except.ok "r"⟩ = ReconOutcome.missFallback (dispatch 1200 ⟨1300, Except.ok "r"⟩) := by
  have h := dispatcher_budget_enforced 1200 ⟨1300, Except.ok "r"⟩ (by decide)
  exact ⟨h.1, h.2.1,
    h.2.2.1 ⟨[⟨1, 7, "weather", [], TaskState.running, Option.none⟩], 2⟩ 1
      ⟨1, 7, "weather", [], TaskState.running, Option.none⟩ rfl rfl,
    h.2.2.2 ⟨[⟨1, 7, "weather", [], TaskState.failed, Option.none⟩], 2⟩ 7 "weather" []
      (by decide)⟩

/-! ### Confidence Gate lemmas (C1, C6, C8) -/

lemma countTriggers_nil : countTriggers [] = 0 := rfl

lemma countTriggers_cons (o : GateOut) (os : List GateOut) :
    countTriggers (o :: os) =
      countTriggers os + (if o = GateOut.ok GateDecision.fireTrigger then 1 else 0) := by
  simp [countTriggers, List.countP_cons]

lemma seqRejected_true (s : GateState) (g : IntentGuess) (q : Nat)
    (h1 : s.lastSeq = some q) (h2 : g.seq < q) : seqRejected s g = true := by
  simp [seqRejected, h1, h2]

lemma seqRejected_false_of_ge (s : GateState) (g : IntentGuess) (q : Nat)
    (h1 : s.lastSeq = some q) (h2 : ¬g.seq < q) : seqRejected s g = false := by
  simp [seqRejected, h1, h2]

lemma seqRejected_false_of_none (s : GateState) (g : IntentGuess)
    (h1 : s.lastSeq = Option.none) : seqRejected s g = false := by
  simp [seqRejected, h1]

lemma gateStep_reject (cfg : GateConfig) (s : GateState) (g : IntentGuess)
    (h : seqRejected s g = true) :
    gateStep cfg s g = (s, GateOut.err GateError.orderingViolation) := by
  simp [gateStep, h]

lemma gateStep_accept (cfg : GateConfig) (s : GateState) (g : IntentGuess)
    (h : seqRejected s g = false) :
    gateStep cfg s g = ((gateCore cfg { s with lastSeq := some g.seq } g).1,
      GateOut.ok (gateCore cfg { s with lastSeq := some g.seq } g).2) := by
  simp [gateStep, h]

/-- C6: a guess whose sequence number is below a previously accepted one is
rejected with `OrderingViolation` and dropped: the gate returns the state
unchanged, and the run over any later guesses proceeds exactly as if the
out-of-order guess had never arrived (only the error output is
inserted). -/
theorem gate_orderingViolation (cfg : GateConfig) (s : GateState) (g : IntentGuess) (q : Nat)
    (h1 : s.lastSeq = some q) (h2 : g.seq < q) :
    gateStep cfg s g = (s, GateOut.err GateError.orderingViolation) ∧
    ∀ gs, gateRun cfg s (g :: gs) =
      ((gateRun cfg s gs).1, GateOut.err GateError.orderingViolation :: (gateRun cfg s gs).2) := by
  have hstep : gateStep cfg s g = (s, GateOut.err GateError.orderingViolation) :=
    gateStep_reject cfg s g (seqRejected_true s g q h1 h2)
  exact ⟨hstep, fun gs => by simp [gateRun, hstep]⟩

/-- Witness for C6: sequence number 3 after an accepted 5. -/
theorem gate_orderingViolation_witness :
    gateStep defaultGateConfig { gateInit with lastSeq := some 5 } ⟨"weather", 990, [], 3, 100⟩ =
      ({ gateInit with lastSeq := some 5 }, GateOut.err GateError.orderingViolation) :=
  (gate_orderingViolation defaultGateConfig { gateInit with lastSeq := some 5 }
    ⟨"weather", 990, [], 3, 100⟩ 5 rfl (by decide)).1

lemma gateCore_overloaded (cfg : GateConfig) (s : GateState) (g : IntentGuess)
    (h : s.cpuOverloaded = true) :
    (gateCore cfg s g).1.cpuOverloaded = true ∧
    (gateCore cfg s g).2 ≠ GateDecision.fireTrigger := by
  unfold gateCore
  split
  · unfold tryTrigger
    split
    · next htr => exfalso; simp [triggerReady, h] at htr
    · exact ⟨h, by simp⟩
  · split
    · exact ⟨h, by simp⟩
    · unfold tryTrigger
      split
      · next htr => exfalso; simp [triggerReady, h] at htr
      · exact ⟨h, by simp⟩

lemma gateStep_overloaded (cfg : GateConfig) (s : GateState) (g : IntentGuess)
    (h : s.cpuOverloaded = true) :
    (gateStep cfg s g).1.cpuOverloaded = true ∧
    (gateStep cfg s g).2 ≠ GateOut.ok GateDecision.fireTrigger := by
  rcases hr : seqRejected s g with _ | _
  · rw [gateStep_accept cfg s g hr]
    have hc := gateCore_overloaded cfg { s with lastSeq := some g.seq } g h
    exact ⟨hc.1, by simpa using hc.2⟩
  · rw [gateStep_reject cfg s g hr]
    exact ⟨h, by simp⟩

/-- Bool predicate: a CPU report event stays above the load-shedding
threshold (non-CPU events satisfy it vacuously). -/
def cpuAbove (cfg : GateConfig) : SysEvent → Bool
  | SysEvent.cpuEv u => decide (cfg.cpuThreshold < u)
  | SysEvent.guessEv _ => true

/-- C8: from any state in which the load-shedding flag is set (CPU
utilisation reported above the threshold), and along any event trace whose
CPU reports all stay above the threshold, the gate fires no trigger
decision at all, regardless of the confidence of the incoming guesses. -/
theorem loadShedding_no_trigger (cfg : GateConfig) (es : List SysEvent) :
    ∀ s : GateState, s.cpuOverloaded = true → (∀ e ∈ es, cpuAbove cfg e = true) →
    countTriggers (sysRun cfg s es).2 = 0 := by
  induction es with
  | nil => intro s _ _; rfl
  | cons e rest ih =>
      intro s h hcpu
      have hrest : ∀ e' ∈ rest, cpuAbove cfg e' = true :=
        fun e' he' => hcpu e' (List.mem_cons_of_mem _ he')
      cases e with
      | guessEv g =>
          have hg := gateStep_overloaded cfg s g h
          simp only [sysRun, sysStep]
          rw [countTriggers_cons, if_neg hg.2]
          simpa using ih (gateStep cfg s g).1 hg.1 hrest
      | cpuEv u =>
          have hu : decide (cfg.cpuThreshold < u) = true := by
            simpa [cpuAbove] using hcpu (SysEvent.cpuEv u) (List.mem_cons_self _ _)
          simp only [sysRun, sysStep]
          rw [countTriggers_cons, if_neg (by simp)]
          have hnew : ({ s with cpuOverloaded := decide (cfg.cpuThreshold < u) } :
              GateState).cpuOverloaded = true := by simpa using hu
          simpa using ih _ hnew hrest

lemma gateStep_same_triggered (cfg : GateConfig) (s : GateState) (g : IntentGuess)
    (h1 : s.domIntent = some g.intent) (h2 : s.triggered = true) :
    gateStep cfg s g = (s, GateOut.err GateError.orderingViolation) ∨
    gateStep cfg s g = ({ s with lastSeq := some g.seq }, GateOut.ok GateDecision.noDecision) := by
  rcases hr : seqRejected s g with _ | _
  · right
    rw [gateStep_accept cfg s g hr]
    have hrdy : triggerReady cfg { s with lastSeq := some g.seq } g = false := by
      simp [triggerReady, h2]
    have hcore : gateCore cfg { s with lastSeq := some g.seq } g =
        ({ s with lastSeq := some g.seq }, GateDecision.noDecision) := by
      unfold gateCore
      rw [if_pos (show ({ s with lastSeq := some g.seq } : GateState).domIntent =
        some g.intent from h1)]
      unfold tryTrigger
      rw [hrdy]
      simp
    rw [hcore]
  · left
    exact gateStep_reject cfg s g hr

lemma gateRun_no_trigger_after (cfg : GateConfig) (i : String) :
    ∀ (gs : List IntentGuess) (s : GateState),
      s.domIntent = some i → s.triggered = true → (∀ g ∈ gs, g.intent = i) →
      countTriggers (gateRun cfg s gs).2 = 0 := by
  intro gs
  induction gs with
  | nil => intro s _ _ _; rfl
  | cons g rest ih =>
      intro s h1 h2 hall
      have hgi : g.intent = i := hall g (List.mem_cons_self g rest)
      have hall' : ∀ g' ∈ rest, g'.intent = i := fun g' hg' => hall g' (List.mem_cons_of_mem _ hg')
      rcases gateStep_same_triggered cfg s g (by rw [hgi]; exact h1) h2 with hs | hs
      · have hrun : gateRun cfg s (g :: rest) =
            ((gateRun cfg s rest).1,
             GateOut.err GateError.orderingViolation :: (gateRun cfg s rest).2) := by
          simp [gateRun, hs]
        rw [hrun, countTriggers_cons, if_neg (by simp)]
        simpa using ih s h1 h2 hall'
      · have hrun : gateRun cfg s (g :: rest) =
            ((gateRun cfg { s with lastSeq := some g.seq } rest).1,
             GateOut.ok GateDecision.noDecision ::
               (gateRun cfg { s with lastSeq := some g.seq } rest).2) := by
          simp [gateRun, hs]
        rw [hrun, countTriggers_cons, if_neg (by simp)]
        simpa using ih { s with lastSeq := some g.seq } h1 h2 hall'

lemma tryTrigger_sound (cfg : GateConfig) (u : GateState) (g : IntentGuess) (s2 : GateState)
    (h : tryTrigger cfg u g = (s2, GateDecision.fireTrigger)) :
    cfg.tau < g.p ∧ s2.domSince + cfg.dwell ≤ g.t ∧
    (∀ c, s2.lastCancel.lookup g.intent = some c → c + cfg.cooldown ≤ g.t) := by
  unfold tryTrigger at h
  split at h
  · next hr =>
      have hs2 : s2 = { u with triggered := true } := by
        have := congrArg Prod.fst h
        simpa using this.symm
      rw [triggerReady] at hr
      simp only [Bool.and_eq_true, decide_eq_true_eq, Bool.not_eq_true'] at hr
      obtain ⟨⟨⟨⟨hp, hdw⟩, hcool⟩, _⟩, _⟩ := hr
      subst hs2
      refine ⟨hp, hdw, ?_⟩
      intro c hc
      unfold cooldownOk at hcool
      have hc' : u.lastCancel.lookup g.intent = some c := hc
      rw [hc'] at hcool
      simpa using hcool
  · next hr =>
      exfalso
      have := congrArg Prod.snd h
      simp at this

lemma gateCore_trigger_sound (cfg : GateConfig) (s : GateState) (g : IntentGuess)
    (s2 : GateState) (h : gateCore cfg s g = (s2, GateDecision.fireTrigger)) :
    cfg.tau < g.p ∧ s2.domSince + cfg.dwell ≤ g.t ∧
    (∀ c, s2.lastCancel.lookup g.intent = some c → c + cfg.cooldown ≤ g.t) := by
  unfold gateCore at h
  split at h
  · exact tryTrigger_sound cfg s g s2 h
  · split at h
    · exfalso
      have := congrArg Prod.snd h
      simp at this
    · exact tryTrigger_sound cfg _ g s2 h

lemma gateStep_trigger_sound (cfg : GateConfig) (s : GateState) (g : IntentGuess) (s2 : GateState)
    (h : gateStep cfg s g = (s2, GateOut.ok GateDecision.fireTrigger)) :
    cfg.tau < g.p ∧ s2.domSince + cfg.dwell ≤ g.t ∧
    (∀ c, s2.lastCancel.lookup g.intent = some c → c + cfg.cooldown ≤ g.t) := by
  rcases hr : seqRejected s g with _ | _
  · rw [gateStep_accept cfg s g hr] at h
    rcases hg : gateCore cfg { s with lastSeq := some g.seq } g with ⟨a, d⟩
    rw [hg] at h
    have ha : a = s2 := congrArg Prod.fst h
    have hd : GateOut.ok d = GateOut.ok GateDecision.fireTrigger := congrArg Prod.snd h
    injection hd with hd2
    subst ha
    subst hd2
    exact gateCore_trigger_sound cfg _ g a hg
  · rw [gateStep_reject cfg s g hr] at h
    exfalso
    have := congrArg Prod.snd h
    simp at this

lemma gateRun_tracking (cfg : GateConfig) (i : String) (T : Nat) :
    ∀ (gs : List IntentGuess) (s : GateState) (q : Nat),
      s.domIntent = some i → s.triggered = false → s.lastCancel = [] →
      s.cpuOverloaded = false → s.domSince = T → s.lastSeq = some q →
      (∀ g ∈ gs, g.intent = i) → (∀ g ∈ gs, cfg.tau < g.p) →
      seqAbove (some q) gs →
      countTriggers (gateRun cfg s gs).2 =
        (if ∃ g ∈ gs, T + cfg.dwell ≤ g.t then 1 else 0) := by
  intro gs
  induction gs with
  | nil =>
      intro s q _ _ _ _ _ _ _ _ _
      simp [gateRun, countTriggers]
  | cons g rest ih =>
      intro s q h1 h2 h3 h4 h5 h6 hint hp hseq
      obtain ⟨hqlt, hseq'⟩ := hseq
      have hgi : g.intent = i := hint g (List.mem_cons_self g rest)
      have hgp : cfg.tau < g.p := hp g (List.mem_cons_self g rest)
      have hint' : ∀ g' ∈ rest, g'.intent = i := fun g' h => hint g' (List.mem_cons_of_mem _ h)
      have hp' : ∀ g' ∈ rest, cfg.tau < g'.p := fun g' h => hp g' (List.mem_cons_of_mem _ h)
      have hrej : seqRejected s g = false :=
        seqRejected_false_of_ge s g q h6 (by omega)
      have hready : triggerReady cfg { s with lastSeq := some g.seq } g =
          decide (T + cfg.dwell ≤ g.t) := by
        simp [triggerReady, hgp, h2, h3, h4, h5, cooldownOk]
      have hdomi : ({ s with lastSeq := some g.seq } : GateState).domIntent = some g.intent := by
        rw [hgi]; exact h1
      by_cases hdw : T + cfg.dwell ≤ g.t
      · have hcore : gateCore cfg { s with lastSeq := some g.seq } g =
            ({ s with lastSeq := some g.seq, triggered := true }, GateDecision.fireTrigger) := by
          unfold gateCore
          rw [if_pos hdomi]
          unfold tryTrigger
          rw [hready]
          simp [hdw]
        have hstep : gateStep cfg s g =
            ({ s with lastSeq := some g.seq, triggered := true },
             GateOut.ok GateDecision.fireTrigger) := by
          rw [gateStep_accept cfg s g hrej, hcore]
        have hrun : gateRun cfg s (g :: rest) =
            ((gateRun cfg { s with lastSeq := some g.seq, triggered := true } rest).1,
             GateOut.ok GateDecision.fireTrigger ::
               (gateRun cfg { s with lastSeq := some g.seq, triggered := true } rest).2) := by
          simp [gateRun, hstep]
        rw [hrun, countTriggers_cons, if_pos rfl]
        rw [gateRun_no_trigger_after cfg i rest
          { s with lastSeq := some g.seq, triggered := true } h1 rfl hint']
        rw [if_pos ⟨g, List.mem_cons_self g rest, hdw⟩]
      · have hcore : gateCore cfg { s with lastSeq := some g.seq } g =
            ({ s with lastSeq := some g.seq }, GateDecision.noDecision) := by
          unfold gateCore
          rw [if_pos hdomi]
          unfold tryTrigger
          rw [hready]
          simp [hdw]
        have hstep : gateStep cfg s g =
            ({ s with lastSeq := some g.seq }, GateOut.ok GateDecision.noDecision) := by
          rw [gateStep_accept cfg s g hrej, hcore]
        have hrun : gateRun cfg s (g :: rest) =
            ((gateRun cfg { s with lastSeq := some g.seq } rest).1,
             GateOut.ok GateDecision.noDecision ::
               (gateRun cfg { s with lastSeq := some g.seq } rest).2) := by
          simp [gateRun, hstep]
        rw [hrun, countTriggers_cons, if_neg (by simp), Nat.add_zero]
        rw [ih { s with lastSeq := some g.seq } g.seq h1 h2 h3 h4 h5 rfl hint' hp' hseq']
        have hiff : (∃ g' ∈ g :: rest, T + cfg.dwell ≤ g'.t) ↔
            ∃ g' ∈ rest, T + cfg.dwell ≤ g'.t := by
          constructor
          · rintro ⟨g', hg', ht⟩
            rcases List.mem_cons.1 hg' with he | hm
            · exact absurd (he ▸ ht) hdw
            · exact ⟨g', hm, ht⟩
          · rintro ⟨g', hm, ht⟩
            exact ⟨g', List.mem_cons_of_mem _ hm, ht⟩
        by_cases hex : ∃ g' ∈ rest, T + cfg.dwell ≤ g'.t
        · rw [if_pos hex, if_pos (hiff.2 hex)]
        · rw [if_neg hex, if_neg (fun hc => hex (hiff.1 hc))]

lemma gate_exactly_one (cfg : GateConfig) (g0 : IntentGuess) (rest : List IntentGuess)
    (hint : ∀ g ∈ g0 :: rest, g.intent = g0.intent)
    (hp : ∀ g ∈ g0 :: rest, cfg.tau < g.p)
    (hseq : seqAbove Option.none (g0 :: rest))
    (hreach : ∃ g ∈ g0 :: rest, g0.t + cfg.dwell ≤ g.t) :
    countTriggers (gateRun cfg gateInit (g0 :: rest)).2 = 1 := by
  have hp0 : cfg.tau < g0.p := hp g0 (List.mem_cons_self g0 rest)
  have hint' : ∀ g ∈ rest, g.intent = g0.intent :=
    fun g h => hint g (List.mem_cons_of_mem _ h)
  have hp' : ∀ g ∈ rest, cfg.tau < g.p := fun g h => hp g (List.mem_cons_of_mem _ h)
  have hseq' : seqAbove (some g0.seq) rest := hseq
  have hrej : seqRejected gateInit g0 = false := seqRejected_false_of_none gateInit g0 rfl
  have hcore0 : gateCore cfg { gateInit with lastSeq := some g0.seq } g0 =
      tryTrigger cfg
        { gateInit with
            lastSeq := some g0.seq, domIntent := some g0.intent, domSince := g0.t,
            triggered := false }
        g0 := rfl
  have hready0 : triggerReady cfg
      { gateInit with
          lastSeq := some g0.seq, domIntent := some g0.intent, domSince := g0.t,
          triggered := false }
      g0 = decide (g0.t + cfg.dwell ≤ g0.t) := by
    simp [triggerReady, hp0, cooldownOk, gateInit]
  by_cases hdw0 : g0.t + cfg.dwell ≤ g0.t
  · have hcore : gateCore cfg { gateInit with lastSeq := some g0.seq } g0 =
        ({ gateInit with
             lastSeq := some g0.seq, domIntent := some g0.intent, domSince := g0.t,
             triggered := true },
         GateDecision.fireTrigger) := by
      rw [hcore0]
      unfold tryTrigger
      rw [hready0]
      simp [hdw0]
    have hstep : gateStep cfg gateInit g0 =
        ({ gateInit with
             lastSeq := some g0.seq, domIntent := some g0.intent, domSince := g0.t,
             triggered := true },
         GateOut.ok GateDecision.fireTrigger) := by
      rw [gateStep_accept cfg gateInit g0 hrej, hcore]
    have hrun : gateRun cfg gateInit (g0 :: rest) =
        ((gateRun cfg
            { gateInit with
                lastSeq := some g0.seq, domIntent := some g0.intent, domSince := g0.t,
                triggered := true }
            rest).1,
         GateOut.ok GateDecision.fireTrigger ::
           (gateRun cfg
             { gateInit with
                 lastSeq := some g0.seq, domIntent := some g0.intent, domSince := g0.t,
                 triggered := true }
             rest).2) := by
      simp [gateRun, hstep]
    rw [hrun, countTriggers_cons, if_pos rfl]
    rw [gateRun_no_trigger_after cfg g0.intent rest
      { gateInit with
          lastSeq := some g0.seq, domIntent := some g0.intent, domSince := g0.t,
          triggered := true }
      rfl rfl hint']
  · have hcore : gateCore cfg { gateInit with lastSeq := some g0.seq } g0 =
        ({ gateInit with
             lastSeq := some g0.seq, domIntent := some g0.intent, domSince := g0.t,
             triggered := false },
         GateDecision.noDecision) := by
      rw [hcore0]
      unfold tryTrigger
      rw [hready0]
      simp [hdw0]
    have hstep : gateStep cfg gateInit g0 =
        ({ gateInit with
             lastSeq := some g0.seq, domIntent := some g0.intent, domSince := g0.t,
             triggered := false },
         GateOut.ok GateDecision.noDecision) := by
      rw [gateStep_accept cfg gateInit g0 hrej, hcore]
    have hrun : gateRun cfg gateInit (g0 :: rest) =
        ((gateRun cfg
            { gateInit with
                lastSeq := some g0.seq, domIntent := some g0.intent, domSince := g0.t,
                triggered := false }
            rest).1,
         GateOut.ok GateDecision.noDecision ::
           (gateRun cfg
             { gateInit with
                 lastSeq := some g0.seq, domIntent := some g0.intent, domSince := g0.t,
                 triggered := false }
             rest).2) := by
      simp [gateRun, hstep]
    rw [hrun, countTriggers_cons, if_neg (by simp), Nat.add_zero]
    rw [gateRun_tracking cfg g0.intent g0.t rest
      { gateInit with
          lastSeq := some g0.seq, domIntent := some g0.intent, domSince := g0.t,
          triggered := false }
      g0.seq rfl rfl rfl rfl rfl rfl hint' hp' hseq']
    rcases hreach with ⟨g, hg, ht⟩
    rcases List.mem_cons.1 hg with he | hm
    · exact absurd (he ▸ ht) hdw0
    · rw [if_pos ⟨g, hm, ht⟩]

/-- C1: the Confidence Gate emits a trigger decision only when all three
conditions hold — the guess's probability strictly exceeds τ, the same
intent has been the top guess continuously for the whole dwell window
(the run's start `domSince` lies at least `dwell` ms in the past), and at
least `cooldown` ms have elapsed since the last recorded cancellation for
that intent slot; and on any input sequence with strictly increasing
sequence numbers in which a single intent stays dominant above τ and the
sequence spans at least the dwell window, exactly one trigger decision is
emitted. -/
theorem confidenceGate_trigger_correct :
    (∀ cfg s g s2, gateStep cfg s g = (s2, GateOut.ok GateDecision.fireTrigger) →
        cfg.tau < g.p ∧ s2.domSince + cfg.dwell ≤ g.t ∧
        (∀ c, s2.lastCancel.lookup g.intent = some c → c + cfg.cooldown ≤ g.t)) ∧
    (∀ cfg (g0 : IntentGuess) (rest : List IntentGuess),
        (∀ g ∈ g0 :: rest, g.intent = g0.intent) →
        (∀ g ∈ g0 :: rest, cfg.tau < g.p) →
        seqAbove Option.none (g0 :: rest) →
        (∃ g ∈ g0 :: rest, g0.t + cfg.dwell ≤ g.t) →
        countTriggers (gateRun cfg gateInit (g0 :: rest)).2 = 1) :=
  ⟨gateStep_trigger_sound, gate_exactly_one⟩

/-- Witness for C1: a trigger actually fired at probability 0.85 after a
130 ms dwell, and a sustained three-guess weather run fires exactly one
trigger. -/
theorem confidenceGate_trigger_correct_witness :
    (defaultGateConfig.tau < 850 ∧
      (⟨some 3, some "weather", 0, true, [], false⟩ : GateState).domSince +
        defaultGateConfig.dwell ≤ 130) ∧
    countTriggers (gateRun defaultGateConfig gateInit
      [⟨"weather", 830, [], 1, 0⟩, ⟨"weather", 840, [], 2, 60⟩,
       ⟨"weather", 850, [], 3, 130⟩]).2 = 1 := by
  constructor
  · have h := confidenceGate_trigger_correct.1 defaultGateConfig
      ⟨some 2, some "weather", 0, false, [], false⟩ ⟨"weather", 850, [], 3, 130⟩
      ⟨some 3, some "weather", 0, true, [], false⟩ (by decide)
    exact ⟨h.1, h.2.1⟩
  · exact confidenceGate_trigger_correct.2 defaultGateConfig ⟨"weather", 830, [], 1, 0⟩
      [⟨"weather", 840, [], 2, 60⟩, ⟨"weather", 850, [], 3, 130⟩]
      (by decide) (by decide) (by simp [seqAbove]) (by decide)

/-- Witness for C8: overload at 95 %, then two high-confidence guesses that
would otherwise trigger. -/
theorem loadShedding_no_trigger_witness :
    countTriggers (sysRun defaultGateConfig { gateInit with cpuOverloaded := true }
      [SysEvent.cpuEv 95, SysEvent.guessEv ⟨"weather", 990, [], 1, 0⟩,
       SysEvent.guessEv ⟨"weather", 990, [], 2, 300⟩]).2 = 0 :=
  loadShedding_no_trigger defaultGateConfig
    [SysEvent.cpuEv 95, SysEvent.guessEv ⟨"weather", 990, [], 1, 0⟩,
     SysEvent.guessEv ⟨"weather", 990, [], 2, 300⟩]
    { gateInit with cpuOverloaded := true } rfl (by decide)

end SpecOrch

namespace WSClient

/-! ### WebSocket client lemmas (C9, C10) -/

lemma flushLoop_all_ok :
    ∀ (q : List Msg) (oks : List Bool) (st : WSState), (∀ b ∈ oks, b = true) →
      flushLoop st q oks = { st with sent := st.sent ++ q } := by
  intro q
  induction q with
  | nil =>
      intro oks st _
      simp [flushLoop]
  | cons m q' ih =>
      intro oks st h
      have hh : oks.headD true = true := by
        cases oks with
        | nil => rfl
        | cons b bs => exact h b (List.mem_cons_self b bs)
      have htail : ∀ b ∈ oks.tail, b = true :=
        fun b hb => h b (List.mem_of_mem_tail hb)
      simp only [flushLoop, hh, if_true]
      rw [ih oks.tail { st with sent := st.sent ++ [m] } htail]
      simp

lemma flushQueue_all_ok :
    ∀ (st : WSState) (oks : List Bool), st.wsOpen = true → st.isAuthenticated = true →
      (∀ b ∈ oks, b = true) →
      flushQueue st oks = { st with pendingQueue := [], sent := st.sent ++ st.pendingQueue } := by
  rintro ⟨o, c, a, sid, pq, sn, sq⟩ oks hopen hauth hoks
  have ho : o = true := hopen
  have ha : a = true := hauth
  subst ho
  subst ha
  rcases pq with _ | ⟨m0, q0⟩
  · simp [flushQueue]
  · have hL := flushLoop_all_ok (m0 :: q0) oks ⟨true, c, true, sid, [], sn, sq⟩ hoks
    simp [flushQueue, hL]

/-- C9: `send` stamps the manager's `session_id` onto every message it
transmits or queues; with the socket closed, or unauthenticated on a
non-auth message, the stamped message is appended to `pendingQueue` and
`send` returns `false`; with the socket open and authenticated (or an auth
message) and a successful `ws.send`, the stamped message goes out and
`send` returns `true`; and handling an `auth_success` message flushes the
queue — when every transmission succeeds the queued messages go out on the
wire in FIFO order and the queue empties. -/
theorem websocket_send_session_queue_fifo (st : WSState) (m : Msg) (ok : Bool)
    (oks : List Bool) (am : Msg) :
    (st.wsOpen = false →
      send ok st m =
        ({ st with pendingQueue :=
             st.pendingQueue ++ [{ m with sessionId := some st.sessionId }] }, false)) ∧
    (st.wsOpen = true → st.isAuthenticated = false → m.type ≠ "auth" →
      send ok st m =
        ({ st with pendingQueue :=
             st.pendingQueue ++ [{ m with sessionId := some st.sessionId }] }, false)) ∧
    (st.wsOpen = true → (st.isAuthenticated = true ∨ m.type = "auth") → ok = true →
      send ok st m =
        ({ st with sent := st.sent ++ [{ m with sessionId := some st.sessionId }] }, true)) ∧
    (st.wsOpen = true → am.type = "auth_success" → (∀ b ∈ oks, b = true) →
      handleMessage st am oks =
        { st with isAuthenticated := true, pendingQueue := [],
                  sent := st.sent ++ st.pendingQueue }) := by
  refine ⟨?_, ?_, ?_, ?_⟩
  · intro hopen
    simp [send, hopen]
  · intro hopen hauth htype
    simp [send, hopen, hauth, htype]
  · intro hopen hauth hok
    rcases hauth with h | h
    · simp [send, hopen, h, hok]
    · simp [send, hopen, h, hok]
  · intro hopen htype hoks
    simp only [handleMessage, htype, beq_self_eq_true, if_true]
    have hfq := flushQueue_all_ok { st with isAuthenticated := true } oks
      (by simpa using hopen) rfl hoks
    exact hfq

/-- Witness for C9 at a concrete manager state: a queued text message while
unauthenticated, then an `auth_success` flush delivering both queued
messages in order. -/
theorem websocket_send_session_queue_fifo_witness :
    (send true
        ⟨true, false, false, "s1", [⟨"text", some "s1", Option.none, "hello"⟩], [], 0⟩
        ⟨"text", Option.none, Option.none, "world"⟩ =
      (⟨true, false, false, "s1",
        [⟨"text", some "s1", Option.none, "hello"⟩, ⟨"text", some "s1", Option.none, "world"⟩],
        [], 0⟩, false)) ∧
    (handleMessage
        ⟨true, false, false, "s1",
          [⟨"text", some "s1", Option.none, "hello"⟩, ⟨"text", some "s1", Option.none, "world"⟩],
          [], 0⟩
        ⟨"auth_success", Option.none, Option.none, ""⟩ [true, true] =
      ⟨true, false, true, "s1", [],
        [⟨"text", some "s1", Option.none, "hello"⟩, ⟨"text", some "s1", Option.none, "world"⟩],
        0⟩) := by
  constructor
  · exact (websocket_send_session_queue_fifo
      ⟨true, false, false, "s1", [⟨"text", some "s1", Option.none, "hello"⟩], [], 0⟩
      ⟨"text", Option.none, Option.none, "world"⟩ true [] ⟨"x", Option.none, Option.none, ""⟩).2.1
      rfl rfl (by decide)
  · exact (websocket_send_session_queue_fifo
      ⟨true, false, false, "s1",
        [⟨"text", some "s1", Option.none, "hello"⟩, ⟨"text", some "s1", Option.none, "world"⟩],
        [], 0⟩
      ⟨"x", Option.none, Option.none, ""⟩ true [true, true]
      ⟨"auth_success", Option.none, Option.none, ""⟩).2.2.2
      rfl rfl (by decide)

/-- C10: the `seq` field of the `audio_frame` messages built by `sendAudio`
is strictly monotonically increasing per manager instance: `audioSeq` is
pre-incremented, so the first call on a fresh manager produces `seq = 1`,
every call produces `seq` exactly one greater than the instance's previous
counter value, and two successive calls produce consecutive sequence
numbers — no two frames of one instance share a `seq`. -/
theorem sendAudio_seq_strict_mono :
    (∀ (st : WSState) (ok : Bool) (b : String),
        ((sendAudio ok st b).2).seq = some (st.audioSeq + 1) ∧
        ((sendAudio ok st b).1).audioSeq = st.audioSeq + 1) ∧
    (∀ (sid : String) (ok : Bool) (b : String),
        ((sendAudio ok (initWSState sid) b).2).seq = some 1) ∧
    (∀ (st : WSState) (ok1 ok2 : Bool) (b1 b2 : String),
        ((sendAudio ok2 (sendAudio ok1 st b1).1 b2).2).seq = some (st.audioSeq + 2)) := by
  have hpres : ∀ (ok : Bool) (st : WSState) (m : Msg), ((send ok st m).1).audioSeq = st.audioSeq := by
    intro ok st m
    unfold send
    rcases st.wsOpen with _ | _ <;> rcases st.isAuthenticated with _ | _ <;>
      rcases ok with _ | _ <;> by_cases hm : m.type = "auth" <;> simp [hm]
  have hone : ∀ (st : WSState) (ok : Bool) (b : String),
      ((sendAudio ok st b).2).seq = some (st.audioSeq + 1) ∧
      ((sendAudio ok st b).1).audioSeq = st.audioSeq + 1 := by
    intro st ok b
    refine ⟨rfl, ?_⟩
    unfold sendAudio
    rw [hpres]
  refine ⟨hone, fun sid ok b => (hone (initWSState sid) ok b).1, ?_⟩
  intro st ok1 ok2 b1 b2
  rw [(hone _ ok2 b2).1, (hone st ok1 b1).2]

end WSClient
